import Mathlib

/-!
Verification of the gopotency idempotency coordination library.

The development shallowly embeds the coordinator (`Manager.Check`, `Manager.Lock`,
`Manager.Store`, `Manager.Unlock` from the root package) and the reference
in-memory storage backend (`storage/memory/memory.go`).  Go's `time.Time` is
modelled as `Nat` (an instant); each coordinator operation receives the current
instant `now` and uses it for every `time.Now()` call it performs.  Go's
`error` values are modelled by the inductive `GoErr`; a Go `(value, error)`
return becomes a pair of the value and an `Option GoErr`.  The storage
interface is a structure of state-passing functions so that the coordinator can
be instantiated both with the in-memory backend and with a scripted backend
that records the calls the coordinator makes.
-/

/-- Go `error` values that appear in the package (`errors.go` plus the
`StorageError` wrapper); `other` stands for any foreign error such as one
produced by a hasher or key strategy. -/
inductive GoErr where
  | storageNotConfigured
  | keyGenerationFailed
  | requestInProgress
  | invalidConfiguration
  | requestMismatch
  | storageOperation
  | lockTimeout
  | noIdempotencyKey
  | storage (operation : String) (err : GoErr)
  | other (msg : String)
deriving DecidableEq, Repr

/-- `RecordStatus` is a Go string type; the three declared constants follow. -/
def StatusPending : String := "pending"

/-- Status constant for a completed request (`types.go`). -/
def StatusCompleted : String := "completed"

/-- Status constant for a failed request (`types.go`). -/
def StatusFailed : String := "failed"

/-- `CachedResponse` from `types.go`: the persisted projection of a response.
Bodies are byte lists, headers an association list. -/
structure CachedResponse where
  statusCode : Int
  headers : List (String × List String)
  body : List Nat
  contentType : String
deriving DecidableEq, Repr

/-- `Record` from `types.go`.  `status` is a string as in Go; `response` is a
possibly-nil pointer; times are instants (`Nat`, zero meaning Go's zero time). -/
structure Record where
  key : String
  requestHash : String
  status : String
  response : Option CachedResponse
  createdAt : Nat
  expiresAt : Nat
deriving DecidableEq, Repr

/-- `Request` from `types.go`. -/
structure Request where
  method : String
  path : String
  headers : List (String × List String)
  body : List Nat
  idempotencyKey : String
deriving DecidableEq, Repr

/-- `Response` from `types.go`. -/
structure Response where
  statusCode : Int
  headers : List (String × List String)
  body : List Nat
  contentType : String
deriving DecidableEq, Repr

/-- `Response.ToCachedResponse` from `types.go`. -/
def Response.toCachedResponse (r : Response) : CachedResponse :=
  { statusCode := r.statusCode
    headers := r.headers
    body := r.body
    contentType := r.contentType }

/-- The `Storage` interface from `config.go`, as state-passing functions over a
backend state `σ`.  Each operation also receives the instant at which it runs
(the backend's own `time.Now()`).  Go's `(*Record, error)` return of `Get`
becomes `Option Record × Option GoErr`. -/
structure StorageImpl (σ : Type) where
  get : Nat → String → σ → (Option Record × Option GoErr) × σ
  set : Nat → Record → Nat → σ → Option GoErr × σ
  tryLock : Nat → String → Nat → σ → (Bool × Option GoErr) × σ
  unlock : Nat → String → σ → Option GoErr × σ
  existsRec : Nat → String → σ → (Bool × Option GoErr) × σ

/-- The fields of `Config` (from `config.go`) that the verified operations
consult.  Key strategies and request hashers are fallible pure functions.
Observation hooks never alter control flow and are omitted. -/
structure Config (σ : Type) where
  storage : StorageImpl σ
  ttl : Nat
  lockTimeout : Nat
  keyStrategy : Option (Request → Except GoErr String) := none
  requestHasher : Option (Request → Except GoErr String) := none
  allowedMethods : List String := []

namespace Manager

/-- The request-hash computation at the top of `Manager.Lock`: when a hasher is
configured its result (or error) is used, otherwise the hash stays `""`. -/
def hashOf {σ : Type} (cfg : Config σ) (req : Request) : Except GoErr String :=
  match cfg.requestHasher with
  | some h => h req
  | none => Except.ok ""

/-- The body of `Manager.Check` once the idempotency key is resolved
(lines 50-88 of the coordinator): read the record, swallow read failures,
run the hash-mismatch check, then branch on the record status. -/
def checkResolved {σ : Type} (cfg : Config σ) (now : Nat) (req : Request) (s : σ) :
    (Option CachedResponse × Option GoErr) × σ :=
  match cfg.storage.get now req.idempotencyKey s with
  | ((recOpt, errOpt), s1) =>
    match errOpt, recOpt with
    | some _, _ => ((none, none), s1)
    | none, none => ((none, none), s1)
    | none, some record =>
      let mismatch : Bool :=
        match cfg.requestHasher with
        | some h =>
          match h req with
          | Except.ok reqHash =>
            record.requestHash != "" && record.requestHash != reqHash
          | Except.error _ => false
        | none => false
      if mismatch then ((none, some GoErr.requestMismatch), s1)
      else if record.status = StatusPending then
        ((none, some GoErr.requestInProgress), s1)
      else if record.status = StatusCompleted then
        ((record.response, none), s1)
      else ((none, none), s1)

/-- `Manager.Check`: resolve the key (via the key strategy when the request
carries none), then run `checkResolved`; with no resolvable key the request is
exempt from idempotency and `(nil, nil)` is returned. -/
def Check {σ : Type} (cfg : Config σ) (now : Nat) (req : Request) (s : σ) :
    (Option CachedResponse × Option GoErr) × σ :=
  if req.idempotencyKey = "" then
    match cfg.keyStrategy with
    | some ks =>
      match ks req with
      | Except.error e => ((none, some e), s)
      | Except.ok k =>
        if k = "" then ((none, none), s)
        else checkResolved cfg now { req with idempotencyKey := k } s
    | none => ((none, none), s)
  else checkResolved cfg now req s

/-- `Manager.Lock`: reject an empty key, compute the request hash (propagating
hasher errors), try the backend lock, and on success write the `Pending`
record, undoing the lock if that write fails. -/
def Lock {σ : Type} (cfg : Config σ) (now : Nat) (req : Request) (s : σ) :
    Option GoErr × σ :=
  if req.idempotencyKey = "" then (some GoErr.noIdempotencyKey, s)
  else
    match hashOf cfg req with
    | Except.error e => (some e, s)
    | Except.ok reqHash =>
      let record : Record :=
        { key := req.idempotencyKey
          requestHash := reqHash
          status := StatusPending
          response := none
          createdAt := now
          expiresAt := now + cfg.ttl }
      match cfg.storage.tryLock now req.idempotencyKey cfg.lockTimeout s with
      | ((locked, errOpt), s1) =>
        match errOpt with
        | some e => (some (GoErr.storage "trylock" e), s1)
        | none =>
          if !locked then (some GoErr.requestInProgress, s1)
          else
            match cfg.storage.set now record cfg.ttl s1 with
            | (some e, s2) =>
              match cfg.storage.unlock now req.idempotencyKey s2 with
              | (_, s3) => (some (GoErr.storage "set" e), s3)
            | (none, s2) => (none, s2)

/-- `Manager.Store`: reject an empty key, load the prior record (falling back
to a fresh shell on a read failure or absence), mark it `Completed` with the
cached response and a refreshed expiry, write it, and release the lock while
ignoring any release failure. -/
def Store {σ : Type} (cfg : Config σ) (now : Nat) (key : String) (resp : Response)
    (s : σ) : Option GoErr × σ :=
  if key = "" then (some GoErr.noIdempotencyKey, s)
  else
    match cfg.storage.get now key s with
    | ((recOpt, errOpt), s1) =>
      let prior : Record :=
        match errOpt, recOpt with
        | none, some r => r
        | _, _ =>
          { key := key
            requestHash := ""
            status := ""
            response := none
            createdAt := now
            expiresAt := 0 }
      let record : Record :=
        { prior with
          status := StatusCompleted
          response := some resp.toCachedResponse
          expiresAt := now + cfg.ttl }
      match cfg.storage.set now record cfg.ttl s1 with
      | (some e, s2) => (some (GoErr.storage "set" e), s2)
      | (none, s2) =>
        match cfg.storage.unlock now key s2 with
        | (_, s3) => (none, s3)

/-- `Manager.Unlock`: a no-op on an empty key, otherwise the backend release
with its error wrapped. -/
def Unlock {σ : Type} (cfg : Config σ) (now : Nat) (key : String) (s : σ) :
    Option GoErr × σ :=
  if key = "" then (none, s)
  else
    match cfg.storage.unlock now key s with
    | (some e, s1) => (some (GoErr.storage "unlock" e), s1)
    | (none, s1) => (none, s1)

/-- `Manager.IsMethodAllowed`: membership in the configured allow-list; an
empty list always refuses. -/
def IsMethodAllowed {σ : Type} (cfg : Config σ) (method : String) : Bool :=
  if cfg.allowedMethods.length = 0 then false
  else cfg.allowedMethods.contains method

end Manager

/-! ### The reference in-memory backend (`storage/memory/memory.go`)

Go's two maps `records : map[string]*Record` and `locks : map[string]time.Time`
are modelled as association lists; `assocSet` is map assignment and
`assocErase` is `delete`. -/

/-- Map assignment `m[k] = v` on an association list: the new binding shadows
and replaces any previous binding of `k`. -/
def assocSet {α : Type} (l : List (String × α)) (k : String) (v : α) :
    List (String × α) :=
  (k, v) :: l.filter (fun p => p.1 ≠ k)

/-- Map deletion `delete(m, k)` on an association list. -/
def assocErase {α : Type} (l : List (String × α)) (k : String) :
    List (String × α) :=
  l.filter (fun p => p.1 ≠ k)

/-- Map lookup `m[k]` on an association list. -/
def assocGet {α : Type} (l : List (String × α)) (k : String) : Option α :=
  match l with
  | [] => none
  | (k1, v) :: rest => if k1 = k then some v else assocGet rest k

/-- The state of the in-memory backend: the record map and the lock-expiry
map. -/
structure MemState where
  records : List (String × Record)
  locks : List (String × Nat)
deriving DecidableEq, Repr

/-- The empty in-memory storage, as produced by `NewMemoryStorage`. -/
def MemState.empty : MemState := { records := [], locks := [] }

/-- `memory.Storage.Get`: a missing or expired record is a wrapped
`ErrStorageOperation`; `time.Now().After(expiresAt)` is the strict `now >
expiresAt`. -/
def memGet (now : Nat) (key : String) (s : MemState) :
    (Option Record × Option GoErr) × MemState :=
  match assocGet s.records key with
  | none => ((none, some (GoErr.storage "get" GoErr.storageOperation)), s)
  | some record =>
    if now > record.expiresAt then
      ((none, some (GoErr.storage "get" GoErr.storageOperation)), s)
    else ((some record, none), s)

/-- `memory.Storage.Set`: fills in a zero `expiresAt` from the ttl, then
assigns the record under its own key. -/
def memSet (now : Nat) (record : Record) (ttl : Nat) (s : MemState) :
    Option GoErr × MemState :=
  let record :=
    if record.expiresAt = 0 then { record with expiresAt := now + ttl }
    else record
  (none, { s with records := assocSet s.records record.key record })

/-- `memory.Storage.Delete`: removes both the record and any lock. -/
def memDelete (key : String) (s : MemState) : Option GoErr × MemState :=
  (none, { records := assocErase s.records key, locks := assocErase s.locks key })

/-- `memory.Storage.Exists`: live existence, with the same expiry filtering as
`Get` but no error. -/
def memExists (now : Nat) (key : String) (s : MemState) :
    (Bool × Option GoErr) × MemState :=
  match assocGet s.records key with
  | none => ((false, none), s)
  | some record =>
    if now > record.expiresAt then ((false, none), s)
    else ((true, none), s)

/-- `memory.Storage.TryLock`: refuses while a lock entry is strictly in the
future, otherwise (no entry, or an expired one) installs `now + ttl`. -/
def memTryLock (now : Nat) (key : String) (ttl : Nat) (s : MemState) :
    (Bool × Option GoErr) × MemState :=
  match assocGet s.locks key with
  | some lockExpiry =>
    if now < lockExpiry then ((false, none), s)
    else ((true, none), { s with locks := assocSet s.locks key (now + ttl) })
  | none => ((true, none), { s with locks := assocSet s.locks key (now + ttl) })

/-- `memory.Storage.Unlock`: unconditional deletion, never an error. -/
def memUnlock (key : String) (s : MemState) : Option GoErr × MemState :=
  (none, { s with locks := assocErase s.locks key })

/-- The in-memory backend packaged as a `StorageImpl`. -/
def memStorage : StorageImpl MemState :=
  { get := memGet
    set := memSet
    tryLock := memTryLock
    unlock := fun _ key s => memUnlock key s
    existsRec := memExists }

/-! ### A scripted, call-tracing backend

For claims about the coordinator's reaction to backend failures, the backend is
replaced by one that returns results fixed in advance by a `Script` and whose
state is the list of calls the coordinator has issued, in order. -/

/-- One storage call as the coordinator issues it. -/
inductive StorageCall where
  | getC (key : String)
  | setC (record : Record) (ttl : Nat)
  | tryLockC (key : String) (ttl : Nat)
  | unlockC (key : String)
  | existsC (key : String)
deriving DecidableEq, Repr

/-- The results a scripted backend hands to the coordinator. -/
structure Script where
  getR : Option Record × Option GoErr
  setR : Option GoErr
  tryLockR : Bool × Option GoErr
  unlockR : Option GoErr
  existsR : Bool × Option GoErr
deriving Repr

/-- The scripted backend: every operation appends its call to the trace and
returns the scripted result. -/
def scriptedStorage (sc : Script) : StorageImpl (List StorageCall) :=
  { get := fun _ k t => (sc.getR, t ++ [StorageCall.getC k])
    set := fun _ r ttl t => (sc.setR, t ++ [StorageCall.setC r ttl])
    tryLock := fun _ k ttl t => (sc.tryLockR, t ++ [StorageCall.tryLockC k ttl])
    unlock := fun _ k t => (sc.unlockR, t ++ [StorageCall.unlockC k])
    existsRec := fun _ k t => (sc.existsR, t ++ [StorageCall.existsC k]) }

/-- A script whose storage never fails: `Get` finds `rec`, `TryLock` grants
the lock. -/
def okScript (rec : Option Record) : Script :=
  { getR := (rec, none)
    setR := none
    tryLockR := (true, none)
    unlockR := none
    existsR := (rec.isSome, none) }

/-! ### The body hasher (`hash/hasher.go`) -/

/-- `bodyHasher.Hash`: the empty body yields the empty fingerprint without
touching the digest; otherwise the hex-encoded SHA-256 of the body.  The
digest-and-encode step is the abstract `sha256hex`, since only its application
to non-empty bodies matters here. -/
def bodyHasherHash (sha256hex : List Nat → String) (req : Request) :
    Except GoErr String :=
  if req.body.length = 0 then Except.ok ""
  else Except.ok (sha256hex req.body)

/-- `n` sequential `Manager.Lock` calls on the same request at the same
instant, as the in-memory backend's mutex linearizes racing callers; returns
the per-caller results in order and the final state. -/
def runLocks (cfg : Config MemState) (now : Nat) (req : Request) :
    Nat → MemState → List (Option GoErr) × MemState
  | 0, s => ([], s)
  | n + 1, s =>
    ((Manager.Lock cfg now req s).1 ::
       (runLocks cfg now req n (Manager.Lock cfg now req s).2).1,
     (runLocks cfg now req n (Manager.Lock cfg now req s).2).2)

/-- The record `Manager.Store` writes, without its `Completed`/response/expiry
updates: the prior record when the in-memory backend can read it, otherwise
the fresh shell `Store` builds (lines 148-155 of the coordinator). -/
def priorShell (now : Nat) (key : String) (s : MemState) : Record :=
  match (memGet now key s).1 with
  | (some r, none) => r
  | _ =>
    { key := key, requestHash := "", status := "", response := none,
      createdAt := now, expiresAt := 0 }

/-! ### Concrete fixtures used to witness the theorems -/

/-- A coordinator over the in-memory backend, no key strategy or hasher. -/
def cfgMemW : Config MemState :=
  { storage := memStorage, ttl := 10, lockTimeout := 5 }

/-- A coordinator over a scripted backend with the given hasher. -/
def cfgScr (sc : Script) (rh : Option (Request → Except GoErr String)) :
    Config (List StorageCall) :=
  { storage := scriptedStorage sc, ttl := 10, lockTimeout := 5,
    requestHasher := rh }

/-- A sample request carrying the key `"k"`. -/
def reqW : Request :=
  { method := "POST", path := "/pay", headers := [], body := [1, 2],
    idempotencyKey := "k" }

/-- The sample request with an empty body. -/
def reqNoBodyW : Request := { reqW with body := [] }

/-- A sample response. -/
def respW : Response :=
  { statusCode := 200, headers := [("ct", ["j"])], body := [7, 8],
    contentType := "json" }

/-- A live `Pending` record for key `"k"` with fingerprint `"h1"`. -/
def recPendingW : Record :=
  { key := "k", requestHash := "h1", status := StatusPending, response := none,
    createdAt := 0, expiresAt := 10 }

/-- The pending record with an empty fingerprint. -/
def recEmptyHashW : Record := { recPendingW with requestHash := "" }

/-- The pending record already expired at instant 6. -/
def recExpiredW : Record := { recPendingW with expiresAt := 5 }

/-- A memory state holding only the expired record. -/
def memExpiredW : MemState := { records := [("k", recExpiredW)], locks := [] }

/-- A memory state holding only a live lock on `"k"`. -/
def memLockedW : MemState := { records := [], locks := [("k", 100)] }

/-- A hasher that always produces `v`. -/
def hashOkW (v : String) : Request → Except GoErr String :=
  fun _ => Except.ok v

/-- A hasher that always fails. -/
def hashFailW : Request → Except GoErr String :=
  fun _ => Except.error (GoErr.other "boom")

/-- A script that finds the pending record. -/
def scFoundW : Script := okScript (some recPendingW)

/-- A script that finds no record. -/
def scAbsentW : Script := okScript none

/-- A script whose `Set` fails. -/
def scSetFailW : Script := { okScript none with setR := some (GoErr.other "disk") }

/-- A script whose `Unlock` fails. -/
def scUnlockFailW : Script := { okScript none with unlockR := some (GoErr.other "net") }

/-- A script that finds the record with the empty fingerprint. -/
def scEmptyHashW : Script := okScript (some recEmptyHashW)

/-- A stand-in digest function. -/
def shaW : List Nat → String := fun _ => "feed"

/-! ### Helper lemmas -/

theorem assocGet_assocSet_self {α : Type} (l : List (String × α)) (k : String) (v : α) :
    assocGet (assocSet l k v) k = some v := by
  simp [assocSet, assocGet]

/-- What `Manager.Store` does against the in-memory backend, in one equation:
no error, the prior record (or shell) completed and refreshed under the key,
and the key's lock released.  The key-hygiene hypothesis `hwf` says the state
stores records under their own `key` field, as every state reachable through
`memSet` does. -/
theorem store_mem_eq (cfg : Config MemState) (s : MemState) (now : Nat)
    (key : String) (resp : Response)
    (hs : cfg.storage = memStorage) (hk : key ≠ "")
    (hwf : ∀ r, assocGet s.records key = some r → r.key = key) :
    Manager.Store cfg now key resp s =
      (none,
       { records := assocSet s.records key
           { priorShell now key s with
             status := StatusCompleted
             response := some resp.toCachedResponse
             expiresAt := now + cfg.ttl }
         locks := assocErase s.locks key }) := by
  simp only [Manager.Store, hs, memStorage, if_neg hk, priorShell, memGet, memSet, memUnlock]
  rcases hrec : assocGet s.records key with _ | r
  · simp [hrec]
  · have hkey := hwf r hrec
    by_cases hexp : now > r.expiresAt
    · simp [hrec, hexp, hkey]
    · simp [hrec, hexp, hkey]

/-- While a live lock entry exists for the request's key, `Manager.Lock`
returns the in-progress signal and leaves the backend untouched. -/
theorem lock_while_held (cfg : Config MemState) (s : MemState) (now : Nat)
    (req : Request) (hv : String) (exp : Nat)
    (hs : cfg.storage = memStorage) (hk : req.idempotencyKey ≠ "")
    (hh : Manager.hashOf cfg req = Except.ok hv)
    (hheld : assocGet s.locks req.idempotencyKey = some exp)
    (hlive : now < exp) :
    Manager.Lock cfg now req s = (some GoErr.requestInProgress, s) := by
  simp [Manager.Lock, hs, memStorage, if_neg hk, hh, memTryLock, hheld, hlive]

/-- On a key with no lock entry, `Manager.Lock` succeeds, installs the lock
expiring at `now + lockTimeout`, and writes the `Pending` record. -/
theorem lock_fresh (cfg : Config MemState) (s : MemState) (now : Nat)
    (req : Request) (hv : String)
    (hs : cfg.storage = memStorage) (hk : req.idempotencyKey ≠ "")
    (hh : Manager.hashOf cfg req = Except.ok hv)
    (hfresh : assocGet s.locks req.idempotencyKey = none) :
    Manager.Lock cfg now req s =
      (none,
       { records := assocSet s.records req.idempotencyKey
           { key := req.idempotencyKey, requestHash := hv, status := StatusPending,
             response := none, createdAt := now, expiresAt := now + cfg.ttl }
         locks := assocSet s.locks req.idempotencyKey (now + cfg.lockTimeout) }) := by
  simp [Manager.Lock, hs, memStorage, if_neg hk, hh, memTryLock, hfresh, memSet]

/-- Every one of `n` `Manager.Lock` calls issued while a live lock is held
returns the in-progress signal and leaves the state unchanged. -/
theorem runLocks_held (cfg : Config MemState) (s : MemState) (now : Nat)
    (req : Request) (hv : String) (exp : Nat) (n : Nat)
    (hs : cfg.storage = memStorage) (hk : req.idempotencyKey ≠ "")
    (hh : Manager.hashOf cfg req = Except.ok hv)
    (hheld : assocGet s.locks req.idempotencyKey = some exp)
    (hlive : now < exp) :
    runLocks cfg now req n s = (List.replicate n (some GoErr.requestInProgress), s) := by
  induction n with
  | zero => simp [runLocks]
  | succ m ih =>
    rw [runLocks, lock_while_held cfg s now req hv exp hs hk hh hheld hlive]
    simp [ih, List.replicate]

/-! ### The claims -/

/-- Claim C1: on a fresh key (no live lock entry in the backend), among any
number of racing `Manager.Lock` calls — which the in-memory backend's mutex
serializes into a sequence of `TryLock` operations — exactly the first caller
succeeds with `nil`, and every other caller receives `ErrRequestInProgress`;
in particular exactly one result in the sequence is `nil`. -/
theorem lock_exactly_one_succeeds (cfg : Config MemState) (s : MemState) (now : Nat)
    (req : Request) (hv : String) (n : Nat)
    (hs : cfg.storage = memStorage) (hk : req.idempotencyKey ≠ "")
    (hh : Manager.hashOf cfg req = Except.ok hv)
    (hfresh : assocGet s.locks req.idempotencyKey = none)
    (hlt : 0 < cfg.lockTimeout) :
    (runLocks cfg now req (n + 1) s).1 =
      none :: List.replicate n (some GoErr.requestInProgress) ∧
    (runLocks cfg now req (n + 1) s).1.count none = 1 := by
  have hmain : (runLocks cfg now req (n + 1) s).1 =
      none :: List.replicate n (some GoErr.requestInProgress) := by
    rw [runLocks, lock_fresh cfg s now req hv hs hk hh hfresh]
    simp only []
    have hheld : assocGet
        (assocSet s.locks req.idempotencyKey (now + cfg.lockTimeout)) req.idempotencyKey =
        some (now + cfg.lockTimeout) :=
      assocGet_assocSet_self s.locks req.idempotencyKey (now + cfg.lockTimeout)
    rw [runLocks_held cfg _ now req hv (now + cfg.lockTimeout) n hs hk hh hheld (by omega)]
  refine ⟨hmain, ?_⟩
  rw [hmain]
  simp [List.count_cons, List.count_replicate]

/-- Witness for C1 at three racing callers on the empty backend. -/
theorem lock_exactly_one_succeeds_witness :
    (runLocks cfgMemW 0 reqW (2 + 1) MemState.empty).1 =
      none :: List.replicate 2 (some GoErr.requestInProgress) ∧
    (runLocks cfgMemW 0 reqW (2 + 1) MemState.empty).1.count none = 1 :=
  lock_exactly_one_succeeds cfgMemW MemState.empty 0 reqW "" 2 rfl (by decide)
    rfl rfl (by decide)

/-- Claim C2: when the stored record carries a non-empty fingerprint that
differs from the fingerprint the configured hasher computes for the incoming
request, `Manager.Check` returns `ErrRequestMismatch` whatever the record's
status — the mismatch check runs before the status switch, so even a
`Pending` record is reported as a conflict rather than in-progress. -/
theorem check_mismatch_overrides_status (sc : Script) (cfg : Config (List StorageCall))
    (now : Nat) (req : Request) (t : List StorageCall)
    (record : Record) (f : Request → Except GoErr String) (reqHash : String)
    (hs : cfg.storage = scriptedStorage sc)
    (hget : sc.getR = (some record, none))
    (hk : req.idempotencyKey ≠ "")
    (hh : cfg.requestHasher = some f)
    (hf : f req = Except.ok reqHash)
    (hne : record.requestHash ≠ "")
    (hdiff : record.requestHash ≠ reqHash) :
    (Manager.Check cfg now req t).1 = (none, some GoErr.requestMismatch) := by
  simp only [Manager.Check, Manager.checkResolved, hs, scriptedStorage, if_neg hk, hget, hh, hf]
  simp [hne, hdiff]

/-- Witness for C2 at a `Pending` record with fingerprint `"h1"` against an
incoming fingerprint `"h2"`. -/
theorem check_mismatch_overrides_status_witness :
    (Manager.Check (cfgScr scFoundW (some (hashOkW "h2"))) 0 reqW []).1 =
      (none, some GoErr.requestMismatch) :=
  check_mismatch_overrides_status scFoundW (cfgScr scFoundW (some (hashOkW "h2")))
    0 reqW [] recPendingW (hashOkW "h2") "h2" rfl rfl (by decide) rfl rfl
    (by decide) (by decide)

/-- Claim C3: with a resolved key, a storage `Get` that errors or finds no
record makes `Manager.Check` return `(nil, nil)`: the read failure is
swallowed and the caller proceeds as for a brand-new request. -/
theorem check_swallows_read_failures (sc : Script) (cfg : Config (List StorageCall))
    (now : Nat) (req : Request) (t : List StorageCall)
    (hs : cfg.storage = scriptedStorage sc)
    (hk : req.idempotencyKey ≠ "")
    (hfail : sc.getR.2 ≠ none ∨ sc.getR.1 = none) :
    (Manager.Check cfg now req t).1 = (none, none) := by
  simp only [Manager.Check, Manager.checkResolved, hs, scriptedStorage, if_neg hk]
  rcases h : sc.getR with ⟨r, e⟩
  rw [h] at hfail
  cases e with
  | some err => simp
  | none =>
    cases r with
    | none => simp
    | some rec => simp at hfail

/-- Witness for C3 at a backend whose `Get` finds nothing. -/
theorem check_swallows_read_failures_witness :
    (Manager.Check (cfgScr scAbsentW none) 0 reqW []).1 = (none, none) :=
  check_swallows_read_failures scAbsentW (cfgScr scAbsentW none) 0 reqW []
    rfl (by decide) (Or.inr rfl)

/-- Claim C4: when `TryLock` succeeds and the subsequent `Pending`-record
`Set` fails, `Manager.Lock` issues `Unlock` on the key — visible as the last
entry of the storage-call trace — before propagating the wrapped write
error. -/
theorem lock_releases_on_set_failure (sc : Script) (cfg : Config (List StorageCall))
    (now : Nat) (req : Request) (hv : String) (e : GoErr)
    (hs : cfg.storage = scriptedStorage sc)
    (hk : req.idempotencyKey ≠ "")
    (hh : Manager.hashOf cfg req = Except.ok hv)
    (htl : sc.tryLockR = (true, none))
    (hset : sc.setR = some e) :
    Manager.Lock cfg now req [] =
      (some (GoErr.storage "set" e),
       [StorageCall.tryLockC req.idempotencyKey cfg.lockTimeout,
        StorageCall.setC
          { key := req.idempotencyKey, requestHash := hv, status := StatusPending,
            response := none, createdAt := now, expiresAt := now + cfg.ttl }
          cfg.ttl,
        StorageCall.unlockC req.idempotencyKey]) := by
  simp only [Manager.Lock, hs, scriptedStorage, if_neg hk, hh, htl, hset]
  simp

/-- Witness for C4 at a backend that grants the lock and fails the write. -/
theorem lock_releases_on_set_failure_witness :
    Manager.Lock (cfgScr scSetFailW none) 0 reqW [] =
      (some (GoErr.storage "set" (GoErr.other "disk")),
       [StorageCall.tryLockC "k" 5,
        StorageCall.setC
          { key := "k", requestHash := "", status := StatusPending,
            response := none, createdAt := 0, expiresAt := 0 + 10 }
          10,
        StorageCall.unlockC "k"]) :=
  lock_releases_on_set_failure scSetFailW (cfgScr scSetFailW none) 0 reqW ""
    (GoErr.other "disk") rfl (by decide) rfl rfl rfl

/-- Claim C5: a successful `Manager.Store` on a non-empty key leaves the key
bound to a record with status `Completed`, the given response attached, and
expiry refreshed to `now + TTL`, built on the readable prior record (whose
`requestHash` and `createdAt` it preserves) or on a fresh shell when the read
fails or finds nothing — `priorShell` is exactly that choice; and a failed
final lock release never makes `Store` return an error. -/
theorem store_completes_record (cfg : Config MemState) (s : MemState) (now : Nat)
    (key : String) (resp : Response)
    (hs : cfg.storage = memStorage) (hk : key ≠ "")
    (hwf : ∀ r, assocGet s.records key = some r → r.key = key) :
    (Manager.Store cfg now key resp s).1 = none ∧
    assocGet (Manager.Store cfg now key resp s).2.records key =
      some { priorShell now key s with
             status := StatusCompleted
             response := some resp.toCachedResponse
             expiresAt := now + cfg.ttl } ∧
    (∀ (sc : Script) (cfg2 : Config (List StorageCall)) (now2 : Nat)
       (key2 : String) (resp2 : Response) (t : List StorageCall),
       cfg2.storage = scriptedStorage sc → key2 ≠ "" → sc.setR = none →
       (Manager.Store cfg2 now2 key2 resp2 t).1 = none) := by
  refine ⟨?_, ?_, ?_⟩
  · rw [store_mem_eq cfg s now key resp hs hk hwf]
  · rw [store_mem_eq cfg s now key resp hs hk hwf]
    exact assocGet_assocSet_self _ _ _
  · intro sc cfg2 now2 key2 resp2 t hs2 hk2 hset
    simp only [Manager.Store, hs2, scriptedStorage, if_neg hk2, hset]

/-- Witness for C5 on the empty backend, plus a backend whose `Unlock` fails. -/
theorem store_completes_record_witness :
    (Manager.Store cfgMemW 0 "k" respW MemState.empty).1 = none ∧
    assocGet (Manager.Store cfgMemW 0 "k" respW MemState.empty).2.records "k" =
      some { priorShell 0 "k" MemState.empty with
             status := StatusCompleted
             response := some respW.toCachedResponse
             expiresAt := 0 + 10 } ∧
    (Manager.Store (cfgScr scUnlockFailW none) 0 "k" respW []).1 = none := by
  have h := store_completes_record cfgMemW MemState.empty 0 "k" respW rfl
    (by decide) (by intro r hr; simp [assocGet] at hr)
  exact ⟨h.1, h.2.1, h.2.2 scUnlockFailW (cfgScr scUnlockFailW none) 0 "k" respW []
    rfl (by decide) rfl⟩

/-- Claim C6: a successful `Manager.Store (key, R)` followed immediately by
`Manager.Check` on the same key — with no hasher, or with a hasher whose
fingerprint of the request matches the stored one (trivially so when the
preserved fingerprint is empty) — returns the cached projection of `R`, whose
status code, headers, body bytes and content type are exactly those of `R`. -/
theorem store_check_roundtrip (cfg : Config MemState) (s : MemState) (now : Nat)
    (key : String) (resp : Response) (req : Request)
    (hs : cfg.storage = memStorage) (hk : key ≠ "")
    (hreq : req.idempotencyKey = key)
    (hwf : ∀ r, assocGet s.records key = some r → r.key = key)
    (hhash : cfg.requestHasher = none ∨
      ∃ f, cfg.requestHasher = some f ∧
        ((priorShell now key s).requestHash = "" ∨
         f req = Except.ok (priorShell now key s).requestHash)) :
    (Manager.Check cfg now req (Manager.Store cfg now key resp s).2).1 =
      (some resp.toCachedResponse, none) ∧
    resp.toCachedResponse.statusCode = resp.statusCode ∧
    resp.toCachedResponse.headers = resp.headers ∧
    resp.toCachedResponse.body = resp.body ∧
    resp.toCachedResponse.contentType = resp.contentType := by
  refine ⟨?_, rfl, rfl, rfl, rfl⟩
  rw [store_mem_eq cfg s now key resp hs hk hwf]
  set rstored : Record :=
    { priorShell now key s with
      status := StatusCompleted
      response := some resp.toCachedResponse
      expiresAt := now + cfg.ttl } with hr
  set s2 : MemState :=
    { records := assocSet s.records key rstored
      locks := assocErase s.locks key } with hs2
  have hget : memGet now key s2 = ((some rstored, none), s2) := by
    have h1 : assocGet s2.records key = some rstored := by
      rw [hs2]; exact assocGet_assocSet_self s.records key rstored
    have h2 : ¬ (now > rstored.expiresAt) := by rw [hr]; simp
    simp [memGet, h1, h2]
  simp only [Manager.Check, Manager.checkResolved, hs, memStorage, hreq, if_neg hk, hget]
  have hstat1 : rstored.status = StatusCompleted := by rw [hr]
  have hstat2 : ¬ (rstored.status = StatusPending) := by
    rw [hr]; simp [StatusPending, StatusCompleted]
  have hresp : rstored.response = some resp.toCachedResponse := by rw [hr]
  have hhashv : rstored.requestHash = (priorShell now key s).requestHash := by rw [hr]
  rcases hhash with hnone | ⟨f, hf, hmatch⟩
  · simp [hnone, hstat1, hstat2, hresp]
  · simp only [hf]
    rcases hfr : f req with e | v
    · simp [hstat1, hstat2, hresp]
    · rcases hmatch with hm | hm
      · simp [hhashv, hm, hstat1, hstat2, hresp]
      · rw [hfr] at hm
        cases hm
        simp [hhashv, hstat1, hstat2, hresp]

/-- Witness for C6 on the empty backend with no hasher. -/
theorem store_check_roundtrip_witness :
    (Manager.Check cfgMemW 0 reqW
        (Manager.Store cfgMemW 0 "k" respW MemState.empty).2).1 =
      (some respW.toCachedResponse, none) ∧
    respW.toCachedResponse.statusCode = respW.statusCode ∧
    respW.toCachedResponse.headers = respW.headers ∧
    respW.toCachedResponse.body = respW.body ∧
    respW.toCachedResponse.contentType = respW.contentType :=
  store_check_roundtrip cfgMemW MemState.empty 0 "k" respW reqW rfl (by decide)
    rfl (by intro r hr; simp [assocGet] at hr) (Or.inl rfl)

/-- Claim C7: a stored record whose expiry lies strictly in the past is
indistinguishable from an absent one: the in-memory `Get` reports the
storage-operation error it uses for "not found", `Exists` is `false`, and
`Manager.Check` on its key returns `(nil, nil)` with the state untouched. -/
theorem expired_record_invisible (cfg : Config MemState) (s : MemState) (now : Nat)
    (key : String) (rec : Record) (req : Request)
    (hs : cfg.storage = memStorage)
    (hrec : assocGet s.records key = some rec)
    (hexp : now > rec.expiresAt)
    (hreq : req.idempotencyKey = key) (hk : key ≠ "") :
    (memGet now key s).1 = (none, some (GoErr.storage "get" GoErr.storageOperation)) ∧
    (memExists now key s).1 = (false, none) ∧
    Manager.Check cfg now req s = ((none, none), s) := by
  refine ⟨?_, ?_, ?_⟩
  · simp [memGet, hrec, hexp]
  · simp [memExists, hrec, hexp]
  · simp [Manager.Check, Manager.checkResolved, hs, memStorage, hreq, if_neg hk,
      memGet, hrec, hexp]

/-- Witness for C7 at a record expired at instant 5, read at instant 6. -/
theorem expired_record_invisible_witness :
    (memGet 6 "k" memExpiredW).1 =
      (none, some (GoErr.storage "get" GoErr.storageOperation)) ∧
    (memExists 6 "k" memExpiredW).1 = (false, none) ∧
    Manager.Check cfgMemW 6 reqW memExpiredW = ((none, none), memExpiredW) :=
  expired_record_invisible cfgMemW memExpiredW 6 "k" recExpiredW reqW rfl
    (by decide) (by decide) rfl (by decide)

/-- Claim C8: `Manager.Unlock` against the in-memory backend is idempotent —
it returns `nil` on every state, in particular both on a second call after a
previous `Unlock` of the same key and when no lock is held at all. -/
theorem unlock_idempotent (cfg : Config MemState) (s : MemState) (now now2 : Nat)
    (key : String)
    (hs : cfg.storage = memStorage) :
    (Manager.Unlock cfg now key s).1 = none ∧
    (Manager.Unlock cfg now2 key (Manager.Unlock cfg now key s).2).1 = none := by
  by_cases hk : key = "" <;> simp [Manager.Unlock, hs, memStorage, memUnlock, hk]

/-- Witness for C8: unlocking `"k"` twice on a backend holding that lock. -/
theorem unlock_idempotent_witness :
    (Manager.Unlock cfgMemW 0 "k" memLockedW).1 = none ∧
    (Manager.Unlock cfgMemW 1 "k" (Manager.Unlock cfgMemW 0 "k" memLockedW).2).1 = none :=
  unlock_idempotent cfgMemW memLockedW 0 1 "k" rfl

/-- Claim C9: hasher errors are swallowed on the read path but surfaced on the
write path — a failing hasher makes `Manager.Check` skip conflict detection
and fall through to the plain status branch (never returning the hasher error
or `ErrRequestMismatch`), while the same failure makes `Manager.Lock` return
the error with the storage-call trace still empty, i.e. before any storage
call. -/
theorem hasher_error_asymmetry (sc : Script) (cfg : Config (List StorageCall))
    (now : Nat) (req : Request) (t : List StorageCall)
    (record : Record) (f : Request → Except GoErr String) (e : GoErr)
    (hs : cfg.storage = scriptedStorage sc)
    (hget : sc.getR = (some record, none))
    (hk : req.idempotencyKey ≠ "")
    (hh : cfg.requestHasher = some f)
    (hf : f req = Except.error e) :
    (Manager.Check cfg now req t).1 =
      (if record.status = StatusPending then (none, some GoErr.requestInProgress)
       else if record.status = StatusCompleted then (record.response, none)
       else (none, none)) ∧
    Manager.Lock cfg now req [] = (some e, []) := by
  constructor
  · simp only [Manager.Check, Manager.checkResolved, hs, scriptedStorage, if_neg hk, hget, hh, hf]
    by_cases h1 : record.status = "pending" <;>
      by_cases h2 : record.status = "completed" <;>
        simp_all [StatusPending, StatusCompleted]
  · simp only [Manager.Lock, Manager.hashOf, hs, if_neg hk, hh, hf]

/-- Witness for C9 at a `Pending` record and an always-failing hasher. -/
theorem hasher_error_asymmetry_witness :
    (Manager.Check (cfgScr scFoundW (some hashFailW)) 0 reqW []).1 =
      (if recPendingW.status = StatusPending then (none, some GoErr.requestInProgress)
       else if recPendingW.status = StatusCompleted then (recPendingW.response, none)
       else (none, none)) ∧
    Manager.Lock (cfgScr scFoundW (some hashFailW)) 0 reqW [] =
      (some (GoErr.other "boom"), []) :=
  hasher_error_asymmetry scFoundW (cfgScr scFoundW (some hashFailW)) 0 reqW []
    recPendingW hashFailW (GoErr.other "boom") rfl rfl (by decide) rfl rfl

/-- Claim C10: an empty stored fingerprint disables conflict detection — for a
readable record with `requestHash = ""`, `Manager.Check` never returns
`ErrRequestMismatch`, whatever the incoming request and configured hasher; and
the body-only hasher produces exactly that empty fingerprint for every request
with an empty body. -/
theorem empty_fingerprint_disables_conflict (sc : Script)
    (cfg : Config (List StorageCall))
    (now : Nat) (req : Request) (t : List StorageCall) (record : Record)
    (hs : cfg.storage = scriptedStorage sc)
    (hget : sc.getR = (some record, none))
    (hk : req.idempotencyKey ≠ "")
    (hempty : record.requestHash = "") :
    (Manager.Check cfg now req t).1.2 ≠ some GoErr.requestMismatch ∧
    (∀ (sha256hex : List Nat → String) (r2 : Request), r2.body = [] →
      bodyHasherHash sha256hex r2 = Except.ok "") := by
  constructor
  · simp only [Manager.Check, Manager.checkResolved, hs, scriptedStorage, if_neg hk,
      hget, hempty]
    rcases cfg.requestHasher with _ | f
    · simp
      split
      · simp
      · split <;> simp
    · simp
      rcases hf : f req with e | v
      · simp [hf]
        split
        · simp
        · split <;> simp
      · simp [hf]
        split
        · simp
        · split <;> simp
  · intro sha r2 hb
    simp [bodyHasherHash, hb]

/-- Witness for C10 at the empty-fingerprint record, an arbitrary hasher, and
an empty-body request fed to the body hasher. -/
theorem empty_fingerprint_disables_conflict_witness :
    (Manager.Check (cfgScr scEmptyHashW (some (hashOkW "zzz"))) 0 reqW []).1.2 ≠
      some GoErr.requestMismatch ∧
    bodyHasherHash shaW reqNoBodyW = Except.ok "" := by
  have h := empty_fingerprint_disables_conflict scEmptyHashW
    (cfgScr scEmptyHashW (some (hashOkW "zzz"))) 0 reqW [] recEmptyHashW
    rfl rfl (by decide) rfl
  exact ⟨h.1, h.2 shaW reqNoBodyW rfl⟩
